import Mathlib

set_option maxRecDepth 8000

/-!
Verification of the bulk waveform job orchestrator of the
Sermon Summarization Agent repository.

The definitions below are a shallow embedding of the C# sources:
`WaveformService` (job state, progress-line processing, exports),
the DTOs in `Models/`, and the export endpoint of `SermonsController`.
Machine doubles are modelled as exact rationals, `DateTime` instants as
rational seconds, the in-memory cache as an association list, and the
per-job artifact directory on disk as an association list keyed by the
artifact file name without extension.
-/

namespace SermonWaveform

/-- Per-file result record (`Models.WaveformFileResult`). Field defaults
match the C# property initializers. -/
structure WaveformFileResult where
  filename : String := ""
  status : String := "pending"
  sampleCount : Option Int := none
  fileSizeMb : Option ℚ := none
  error : Option String := none
  outputPath : Option String := none
deriving DecidableEq

/-- Job status record (`Models.WaveformJobStatus`). Counters are `Int`
(C# `int`); timestamps are rational seconds. -/
structure WaveformJobStatus where
  jobId : String := ""
  status : String := "queued"
  totalFiles : Int := 0
  processedFiles : Int := 0
  successfulFiles : Int := 0
  failedFiles : Int := 0
  currentFile : Option String := none
  startTime : ℚ := 0
  endTime : Option ℚ := none
  elapsedSeconds : Option ℚ := none
  estimatedRemainingSeconds : Option ℚ := none
  results : List WaveformFileResult := []
  error : Option String := none
deriving DecidableEq

/-- The initial job state created by `StartBulkWaveformJobAsync`
(`WaveformService` lines 94-104). -/
def initialJobState (jobId : String) (now : ℚ) : WaveformJobStatus :=
  { jobId := jobId
    status := "queued"
    startTime := now
    totalFiles := 0
    processedFiles := 0
    successfulFiles := 0
    failedFiles := 0
    results := [] }

/-- The optional JSON properties of a `file_complete` record, as accessed by
`ProcessFileCompleteAsync`. For string-valued properties the outer `Option`
is presence of the property and the inner `Option` distinguishes a JSON
string from JSON `null` (C# `GetString()` returns `null` on a null value).
`sample_count` / `file_size_mb` carry the `GetInt32()` / `GetDouble()`
results of well-typed records. -/
structure FileCompleteRecord where
  filename : Option (Option String) := none
  status : Option (Option String) := none
  sampleCount : Option Int := none
  fileSizeMb : Option ℚ := none
  error : Option (Option String) := none
  outputPath : Option (Option String) := none
deriving DecidableEq

/-- Build the `WaveformFileResult` object exactly as
`ProcessFileCompleteAsync` does (lines 428-446): each property is copied
only when present, with `?? ""` / `?? "unknown"` null-coalescing on
`filename` / `status`. -/
def buildFileResult (r : FileCompleteRecord) : WaveformFileResult :=
  let fr : WaveformFileResult := {}
  let fr := match r.filename with
    | some v => { fr with filename := v.getD "" }
    | none => fr
  let fr := match r.status with
    | some v => { fr with status := v.getD "unknown" }
    | none => fr
  let fr := match r.sampleCount with
    | some n => { fr with sampleCount := some n }
    | none => fr
  let fr := match r.fileSizeMb with
    | some q => { fr with fileSizeMb := some q }
    | none => fr
  let fr := match r.error with
    | some v => { fr with error := v }
    | none => fr
  match r.outputPath with
    | some v => { fr with outputPath := v }
    | none => fr

/-- Remove the first element whose `filename` matches, mirroring
`FirstOrDefault` + `List.Remove` on lines 451-455. -/
def removeFirstResult : List WaveformFileResult → String → List WaveformFileResult
  | [], _ => []
  | r :: rest, name => if r.filename == name then rest else r :: removeFirstResult rest name

/-- `state.Results.Count(r => r.Status == "success" || r.Status == "error")`
(line 459). -/
def countTerminal (l : List WaveformFileResult) : Nat :=
  l.countP (fun r => r.status == "success" || r.status == "error")

/-- `state.Results.Count(r => r.Status == "success")` (line 460). -/
def countSuccess (l : List WaveformFileResult) : Nat :=
  l.countP (fun r => r.status == "success")

/-- `state.Results.Count(r => r.Status == "error")` (line 461). -/
def countError (l : List WaveformFileResult) : Nat :=
  l.countP (fun r => r.status == "error")

/-- The state mutation of `ProcessFileCompleteAsync` (lines 448-462):
upsert the file result by filename (remove existing, append) and recompute
the three counters from the result list. -/
def applyFileComplete (s : WaveformJobStatus) (rec : FileCompleteRecord) : WaveformJobStatus :=
  let fr := buildFileResult rec
  let results := removeFirstResult s.results fr.filename ++ [fr]
  { s with
    results := results
    processedFiles := (countTerminal results : Int)
    successfulFiles := (countSuccess results : Int)
    failedFiles := (countError results : Int) }

/-- A progress record already parsed as JSON and dispatched on its `type`
discriminant (the `switch` of `ProcessProgressLineAsync`, lines 336-418).
Optional fields model `TryGetProperty`; `unknown t` stands for a record
whose discriminant `t` is none of the five recognized kinds. -/
inductive ProgressRecord where
  | started (totalFiles : Option Int)
  | progress (filename : Option (Option String)) (current : Option Int) (total : Option Int)
  | fileComplete (rec : FileCompleteRecord)
  | completed
  | error (message : Option (Option String))
  | unknown (typeName : String)
deriving DecidableEq

/-- One stdout line as seen by `ProcessProgressLineAsync`:
`invalidJson` is a line on which `JsonDocument.Parse` throws a
`JsonException` (caught at lines 420-423); `nonObjectRoot` is valid JSON
whose root is not an object (e.g. a bare number or array), on which
`TryGetProperty` at line 329 throws `InvalidOperationException`;
`missingType` is a JSON object without a `type` property (early return
at lines 329-332); `nonStringType` is an object whose `type` value is
not a string, on which `GetString()` at line 334 throws;
`illTypedField t` is an object with the recognized string discriminant
`t` but an ill-typed required property, on which the typed accessor
(`GetInt32`, `GetDouble`, `GetString`) inside that `case` throws; and
`record` is a parsed object with a string discriminant and well-typed
fields, dispatched on its discriminant. -/
inductive StdoutLine where
  | invalidJson
  | nonObjectRoot
  | missingType
  | nonStringType
  | illTypedField (typeName : String)
  | record (r : ProgressRecord)
deriving DecidableEq

/-- The per-job state transition of `ProcessProgressLineAsync`
(lines 322-424); `now` is `DateTime.UtcNow` at processing time.
Each `case` mutates the state only when its required properties are
present, exactly as the C# guards do. For the throwing line classes
(`nonObjectRoot`, `nonStringType`, `illTypedField`) the accessor throws
before any `UpdateJobState` call, so this function yields the (unchanged)
state at the moment the exception escapes; the escape itself — the
`InvalidOperationException` that the `JsonException`-only handler does
not catch — is modelled by `lineThrows` and `runReaderLoop` below. -/
def processProgressLine (now : ℚ) (line : StdoutLine) (s : WaveformJobStatus) : WaveformJobStatus :=
  match line with
  | .invalidJson => s
  | .nonObjectRoot => s
  | .missingType => s
  | .nonStringType => s
  | .illTypedField _ => s
  | .record r =>
    match r with
    | .started none => s
    | .started (some t) => { s with totalFiles := t, status := "processing" }
    | .progress (some f) (some _) (some _) => { s with currentFile := f }
    | .progress _ _ _ => s
    | .fileComplete rec => applyFileComplete s rec
    | .completed => { s with status := "completed", endTime := some now, currentFile := none }
    | .error (some m) => { s with status := "failed", error := m, endTime := some now }
    | .error none => s
    | .unknown _ => s

/-- Lines that the service silently skips: unparsable JSON, objects
without the `type` discriminant, and unrecognized string discriminants.
The throwing line classes are not skipped — see `lineThrows`. -/
def isIgnoredLine : StdoutLine → Bool
  | .invalidJson => true
  | .nonObjectRoot => false
  | .missingType => true
  | .nonStringType => false
  | .illTypedField _ => false
  | .record (.unknown t) =>
      !(["started", "progress", "file_complete", "completed", "error"].contains t)
  | .record _ => false

/-- Lines whose processing throws an exception that the
`JsonException`-only handler of `ProcessProgressLineAsync` does not
catch: `TryGetProperty` on a non-object root, `GetString()` on a
non-string `type` value, and the typed accessors on an ill-typed
required field of a recognized record all throw
`InvalidOperationException`, which propagates out of the per-line
call. -/
def lineThrows : StdoutLine → Bool
  | .nonObjectRoot => true
  | .nonStringType => true
  | .illTypedField _ => true
  | _ => false

/-- Fold a stream of timestamped stdout lines through
`processProgressLine`, in the order the reader loop delivers them
(lines 238-245). -/
def applyLines (s : WaveformJobStatus) (lines : List (ℚ × StdoutLine)) : WaveformJobStatus :=
  lines.foldl (fun st p => processProgressLine p.1 p.2 st) s

/-- The stdout reader loop of `ProcessBulkWaveformJobAsync`
(lines 238-245) together with its enclosing generic exception handler
(lines 301-310): lines are processed in order; the first line whose
processing throws past the per-line `JsonException` handler aborts the
loop, and the `catch (Exception ex)` block marks the job failed with the
exception message (`excMsg`) and an end time. Later lines are never
read, and the exit-code check is never reached. -/
def runReaderLoop (excMsg : String) (s : WaveformJobStatus) :
    List (ℚ × StdoutLine) → WaveformJobStatus
  | [] => s
  | p :: rest =>
      if lineThrows p.2 then
        { s with status := "failed", error := some excMsg, endTime := some p.1 }
      else runReaderLoop excMsg (processProgressLine p.1 p.2 s) rest

/-- The exit-code check of `ProcessBulkWaveformJobAsync` (lines 251-282):
a nonzero exit unconditionally fails the job with the captured stderr;
exit code 0 completes the job only if it is still `processing`. -/
def applyExitCode (now : ℚ) (exitCode : Int) (stderrOutput : String)
    (s : WaveformJobStatus) : WaveformJobStatus :=
  if exitCode ≠ 0 then
    { s with
      status := "failed"
      error := some ("Processing failed: " ++ stderrOutput)
      endTime := some now }
  else if s.status == "processing" then
    { s with status := "completed", endTime := some now }
  else s

/-! ## The job state store (`IMemoryCache` keyed by job id) -/

/-- The in-memory job store: an association list from job id to state. -/
abbrev JobStore := List (String × WaveformJobStatus)

/-- `_cache.TryGetValue(jobId, out jobState)`. -/
def lookupJob (store : JobStore) (jobId : String) : Option WaveformJobStatus :=
  (store.find? (fun p => p.1 == jobId)).map (fun p => p.2)

/-- `_cache.Set(jobId, state, options)`: replace the entry if present,
otherwise add it. -/
def setJob : JobStore → String → WaveformJobStatus → JobStore
  | [], jobId, st => [(jobId, st)]
  | p :: rest, jobId, st =>
      if p.1 == jobId then (jobId, st) :: rest else p :: setJob rest jobId st

/-- `UpdateJobState` (lines 473-483): apply the mutator and write back only
when the job is present in the cache; otherwise do nothing. -/
def updateJobState (store : JobStore) (jobId : String)
    (f : WaveformJobStatus → WaveformJobStatus) : JobStore :=
  match lookupJob store jobId with
  | none => store
  | some st => setJob store jobId (f st)

/-- Store-level processing of one stdout line: every `case` of
`ProcessProgressLineAsync` performs its mutation through
`UpdateJobState`. -/
def processLineStore (store : JobStore) (jobId : String) (now : ℚ)
    (line : StdoutLine) : JobStore :=
  updateJobState store jobId (processProgressLine now line)

/-- `GetJobStatus`'s in-place mutation of the cached object (lines 137-157):
set `ElapsedSeconds` from `now`, and overwrite
`EstimatedRemainingSeconds` only when files were processed and the job is
still `processing`. -/
def computeDerived (now : ℚ) (st : WaveformJobStatus) : WaveformJobStatus :=
  let elapsed : ℚ := now - st.startTime
  let st := { st with elapsedSeconds := some elapsed }
  if st.processedFiles > 0 ∧ st.status = "processing" then
    let avgTimePerFile : ℚ := elapsed / (st.processedFiles : ℚ)
    let remainingFiles : Int := st.totalFiles - st.processedFiles
    { st with estimatedRemainingSeconds := some (avgTimePerFile * (remainingFiles : ℚ)) }
  else st

/-- `GetJobStatus` (lines 137-157). The C# method mutates the cached
object by reference; the returned store reflects that persisted
mutation. -/
def getJobStatus (store : JobStore) (jobId : String) (now : ℚ) :
    Option WaveformJobStatus × JobStore :=
  match lookupJob store jobId with
  | none => (none, store)
  | some st =>
      let st := computeDerived now st
      (some st, setJob store jobId st)

/-! ## The on-disk artifact directory of a job -/

/-- A per-file waveform artifact JSON file as the service reads it.
Each field is the corresponding JSON property when present
(`filename` may be JSON `null`). -/
structure Artifact where
  filename : Option (Option String) := none
  sampleCount : Option Int := none
  waveformData : Option (List ℚ) := none
deriving DecidableEq

/-- The temp output directory of one job
(`%TEMP%/SermonWaveforms/{jobId}`): whether the directory exists, and its
artifact files keyed by file name without the `.json` extension. -/
structure JobDirectory where
  dirExists : Bool := true
  files : List (String × Artifact) := []
deriving DecidableEq

/-- `File.Exists` plus `JsonDocument.Parse` of
`{tempOutputDir}/{name}.json`. -/
def lookupArtifact (dir : JobDirectory) (name : String) : Option Artifact :=
  (dir.files.find? (fun p => p.1 == name)).map (fun p => p.2)

/-- `Path.GetFileNameWithoutExtension`: strip any directory part, then
drop the last dot and everything after it. -/
def fileNameWithoutExtension (s : String) : String :=
  let afterSep := fun (sep : Char) (cs : List Char) =>
    (cs.reverse.takeWhile (fun c => c ≠ sep)).reverse
  let cs := afterSep '\\' (afterSep '/' s.toList)
  let cs :=
    if cs.contains '.' then
      ((cs.reverse.dropWhile (fun c => c ≠ '.')).drop 1).reverse
    else cs
  String.mk cs

/-- `Math.Round(q, 3)` uses banker's rounding (round half to even). -/
def roundHalfEven (q : ℚ) : ℤ :=
  let f : ℤ := Rat.floor q
  let r : ℚ := q - (f : ℚ)
  if r < 1 / 2 then f
  else if 1 / 2 < r then f + 1
  else if f % 2 = 0 then f else f + 1

/-- `Math.Round(q, 3)`. -/
def round3 (q : ℚ) : ℚ := (roundHalfEven (q * 1000) : ℚ) / 1000

/-- Zero-pad a fractional part to three digits. -/
def natPad3 (n : Nat) : String :=
  if n < 10 then "00" ++ toString n
  else if n < 100 then "0" ++ toString n
  else toString n

/-- Zero-pad a fractional part to two digits. -/
def natPad2 (n : Nat) : String :=
  if n < 10 then "0" ++ toString n else toString n

/-- `ToString("F3")`: fixed-point with three decimals (the standard "F"
format rounds half away from zero; the values formatted by the service
are already rounded to three decimals, so that case is the identity). -/
def formatF3 (q : ℚ) : String :=
  let m : ℤ := if q ≥ 0 then Rat.floor (q * 1000 + 1 / 2) else -Rat.floor (-(q * 1000) + 1 / 2)
  if m < 0 then "-" ++ toString ((-m) / 1000) ++ "." ++ natPad3 ((-m) % 1000).toNat
  else toString (m / 1000) ++ "." ++ natPad3 (m % 1000).toNat

/-- `ToString("F2")` used by the CSV `fileSizeMb` column. -/
def formatF2 (q : ℚ) : String :=
  let m : ℤ := if q ≥ 0 then Rat.floor (q * 100 + 1 / 2) else -Rat.floor (-(q * 100) + 1 / 2)
  if m < 0 then "-" ++ toString ((-m) / 100) ++ "." ++ natPad2 ((-m) % 100).toNat
  else toString (m / 100) ++ "." ++ natPad2 (m % 100).toNat

/-! ## Export encoders (`ExportAsJsonAsync`, `ExportAsCsvAsync`,
`ExportAsZipAsync`) -/

/-- One element of the `waveforms` array of the JSON export
(lines 619-639): a success entry with loaded samples, or an entry for a
non-success result carrying the error message. -/
inductive JsonExportEntry where
  | success (filename : String) (sampleCount : Option Int) (fileSizeMb : Option ℚ)
      (status : String) (waveformData : List ℚ)
  | failure (filename : String) (sampleCount : Int) (fileSizeMb : ℚ)
      (status : String) (error : Option String)
deriving DecidableEq

/-- The JSON export document (lines 584-592). -/
structure JsonExportDoc where
  jobId : String
  exportedAt : ℚ
  totalFiles : Int
  successfulFiles : Int
  failedFiles : Int
  waveforms : List JsonExportEntry
deriving DecidableEq

/-- The loop body of `ExportAsJsonAsync` (lines 597-641): a success
result contributes an entry only when its artifact file exists; a
non-success result always contributes an error entry. -/
def jsonEntryFor (dir : JobDirectory) (r : WaveformFileResult) : Option JsonExportEntry :=
  if r.status == "success" then
    match lookupArtifact dir (fileNameWithoutExtension r.filename) with
    | some art =>
        some (.success r.filename r.sampleCount r.fileSizeMb r.status
          ((art.waveformData.getD []).map round3))
    | none => none
  else
    some (.failure r.filename 0 0 r.status r.error)

/-- `ExportAsJsonAsync` (lines 581-650). -/
def exportAsJson (jobId : String) (jobStatus : WaveformJobStatus)
    (dir : JobDirectory) (now : ℚ) : JsonExportDoc :=
  { jobId := jobId
    exportedAt := now
    totalFiles := jobStatus.totalFiles
    successfulFiles := jobStatus.successfulFiles
    failedFiles := jobStatus.failedFiles
    waveforms := jobStatus.results.filterMap (jsonEntryFor dir) }

/-- The CSV header row (lines 658-663): five metadata columns followed by
480 waveform columns. -/
def csvHeader : List String :=
  ["filename", "status", "sampleCount", "fileSizeMb", "error"] ++
    (List.range 480).map (fun i => "waveform_" ++ toString i)

/-- Pad with the `"0.000"` sentinel to 480 values and truncate beyond 480
(lines 699-701). -/
def padTruncate480 (vals : List String) : List String :=
  (vals ++ List.replicate (480 - vals.length) "0.000").take 480

/-- One CSV data row (lines 666-709), as its list of fields: the four
leading metadata fields, then either the quoted error plus 480 empty
waveform fields (error rows) or an empty error field plus the padded /
truncated samples — which are appended only when the artifact file exists
and has a `waveform_data` property. -/
def csvRow (dir : JobDirectory) (r : WaveformFileResult) : List String :=
  let meta : List String :=
    ["\"" ++ r.filename ++ "\"", r.status,
     toString (r.sampleCount.getD 0), formatF2 (r.fileSizeMb.getD 0)]
  if r.status == "error" then
    meta ++ ["\"" ++ ((r.error.map (fun e => e.replace "\"" "\"\"")).getD "") ++ "\""] ++
      List.replicate 480 ""
  else
    meta ++ [""] ++
      (match lookupArtifact dir (fileNameWithoutExtension r.filename) with
       | some art =>
           match art.waveformData with
           | some vals => padTruncate480 (vals.map (fun v => formatF3 (round3 v)))
           | none => []
       | none => [])

/-- `ExportAsCsvAsync` (lines 652-713), as the list of rows, each a list
of fields. -/
def exportAsCsvRows (dir : JobDirectory) (jobStatus : WaveformJobStatus) :
    List (List String) :=
  csvHeader :: jobStatus.results.map (csvRow dir)

/-- One entry of the manifest's per-file index (lines 744-750). -/
structure ManifestFileEntry where
  filename : String
  jsonFile : Option String
  status : String
  error : Option String
deriving DecidableEq

/-- The ZIP manifest (lines 737-751). -/
structure ZipManifest where
  jobId : String
  exportedAt : ℚ
  totalFiles : Int
  successfulFiles : Int
  failedFiles : Int
  files : List ManifestFileEntry
deriving DecidableEq

/-- An entry of the exported ZIP archive: a copied artifact file or the
manifest. -/
inductive ZipEntry where
  | artifact (entryName : String) (content : Artifact)
  | manifest (m : ZipManifest)
deriving DecidableEq

/-- Whether a ZIP entry is a copied artifact file. -/
def ZipEntry.isArtifactEntry : ZipEntry → Bool
  | .artifact _ _ => true
  | .manifest _ => false

/-- The manifest written by `ExportAsZipAsync` (lines 737-751): its
per-file index maps every success result to an artifact entry name and
every other result to `null`. -/
def zipManifestFor (jobId : String) (jobStatus : WaveformJobStatus) (now : ℚ) : ZipManifest :=
  { jobId := jobId
    exportedAt := now
    totalFiles := jobStatus.totalFiles
    successfulFiles := jobStatus.successfulFiles
    failedFiles := jobStatus.failedFiles
    files := jobStatus.results.map (fun r =>
      { filename := r.filename
        jsonFile :=
          if r.status == "success" then
            some (fileNameWithoutExtension r.filename ++ ".json")
          else none
        status := r.status
        error := r.error }) }

/-- `ExportAsZipAsync` (lines 715-764): one entry per success result
whose artifact file exists, then the manifest. -/
def exportAsZip (jobId : String) (jobStatus : WaveformJobStatus)
    (dir : JobDirectory) (now : ℚ) : List ZipEntry :=
  ((jobStatus.results.filter (fun r => r.status == "success")).filterMap
      (fun r =>
        let name := fileNameWithoutExtension r.filename
        (lookupArtifact dir name).map (fun art => ZipEntry.artifact (name ++ ".json") art))) ++
    [ZipEntry.manifest (zipManifestFor jobId jobStatus now)]

/-- ASCII lower-casing of one character, as `string.ToLower()` acts on
the ASCII format names used here. -/
def charToLower (c : Char) : Char :=
  if 'A' ≤ c ∧ c ≤ 'Z' then Char.ofNat (c.toNat + 32) else c

/-- `format.ToLower()` (the format strings involved are ASCII). -/
def toLowerAscii (s : String) : String :=
  String.mk (s.toList.map charToLower)

/-- The payload produced by `ExportWaveformDataAsync`, one constructor
per encoder. -/
inductive ExportPayload where
  | json (doc : JsonExportDoc)
  | csv (rows : List (List String))
  | zip (entries : List ZipEntry)
deriving DecidableEq

/-- `ExportWaveformDataAsync` (lines 539-579): `none` models the `null`
return (unknown job, job not completed, missing temp directory, or an
unsupported format string). -/
def exportWaveformData (store : JobStore) (dir : JobDirectory)
    (jobId format : String) (now : ℚ) :
    Option (ExportPayload × String × String) :=
  match (getJobStatus store jobId now).1 with
  | none => none
  | some jobStatus =>
    if jobStatus.status ≠ "completed" then none
    else if !dir.dirExists then none
    else
      match toLowerAscii format with
      | "json" => some (.json (exportAsJson jobId jobStatus dir now),
          "application/json", "waveforms-" ++ jobId ++ ".json")
      | "csv" => some (.csv (exportAsCsvRows dir jobStatus),
          "text/csv", "waveforms-" ++ jobId ++ ".csv")
      | "zip" => some (.zip (exportAsZip jobId jobStatus dir now),
          "application/zip", "waveforms-" ++ jobId ++ ".zip")
      | _ => none

/-- Outcome of the export HTTP endpoint. -/
inductive ExportOutcome where
  | badRequest
  | notFound
  | conflict
  | file (payload : ExportPayload) (contentType : String) (filename : String)
deriving DecidableEq

/-- `SermonsController.ExportWaveformData` (controller lines 158-193):
validate the format, then look the job up, then require completion, then
delegate to the service. -/
def exportWaveformDataEndpoint (store : JobStore) (dir : JobDirectory)
    (jobId format : String) (now : ℚ) : ExportOutcome :=
  if !(["json", "csv", "zip"].contains (toLowerAscii format)) then .badRequest
  else
    let fetched := getJobStatus store jobId now
    match fetched.1 with
    | none => .notFound
    | some jobStatus =>
      if jobStatus.status ≠ "completed" then .conflict
      else
        match exportWaveformData fetched.2 dir jobId (toLowerAscii format) now with
        | none => .notFound
        | some (payload, contentType, filename) => .file payload contentType filename

/-! ## Single-file waveform fetch -/

/-- `Models.WaveformData`. -/
structure WaveformData where
  filename : String
  sampleCount : Int
  waveformValues : List ℚ
deriving DecidableEq

/-- `GetWaveformDataAsync` (lines 159-202): purely a function of the
job's on-disk directory and the requested file name. `GetProperty` on a
missing `filename` or `sample_count` throws, which the surrounding
`catch` turns into `null`. -/
def getWaveformData (dir : JobDirectory) (filename : String) : Option WaveformData :=
  match lookupArtifact dir (fileNameWithoutExtension filename) with
  | none => none
  | some art =>
    match art.filename, art.sampleCount with
    | some fn, some sc =>
        some { filename := fn.getD filename
               sampleCount := sc
               waveformValues := (art.waveformData.getD []).map round3 }
    | _, _ => none

/-- The single-file fetch endpoint (controller lines 130-145): the job
state store is in scope in the service but never consulted on this
path. -/
def getWaveformDataEndpoint (store : JobStore) (dir : JobDirectory)
    (jobId filename : String) : Option WaveformData :=
  getWaveformData dir filename

/-- An artifact file carrying both properties that
`GetWaveformDataAsync` reads with throwing accessors. -/
def artifactWellFormed (a : Artifact) : Bool :=
  a.filename.isSome && a.sampleCount.isSome

/-- Every artifact file of the directory is well formed (the shape the
external generator writes). -/
def dirWellFormed (d : JobDirectory) : Bool :=
  d.files.all (fun p => artifactWellFormed p.2)

/-- Pairwise-distinct filenames in a result list — the uniqueness
invariant every reachable job state maintains. -/
def filenamesDistinct : List WaveformFileResult → Bool
  | [] => true
  | r :: rest => rest.all (fun x => !(x.filename == r.filename)) && filenamesDistinct rest

/-- A JSON export entry that is a success entry with exactly 480
waveform values. -/
def jsonEntryHas480 : JsonExportEntry → Bool
  | .success _ _ _ _ w => w.length == 480
  | .failure _ _ _ _ _ => false

/-- The number of samples stored in the on-disk artifact for a file name,
when the artifact exists and has a `waveform_data` array. -/
def sampleCountOnDisk (dir : JobDirectory) (name : String) : Option Nat :=
  ((lookupArtifact dir name).bind (fun a => a.waveformData)).map List.length

/-! ## Helper lemmas -/

theorem countTerminal_eq_add (l : List WaveformFileResult) :
    countTerminal l = countSuccess l + countError l := by
  induction l with
  | nil => rfl
  | cons r t ih =>
    simp only [countTerminal, countSuccess, countError, List.countP_cons] at ih ⊢
    by_cases h1 : r.status = "success" <;> by_cases h2 : r.status = "error" <;>
      simp_all <;> omega

theorem countTerminal_le_length (l : List WaveformFileResult) :
    countTerminal l ≤ l.length :=
  List.countP_le_length _

theorem removeFirstResult_length_le (l : List WaveformFileResult) (name : String) :
    (removeFirstResult l name).length ≤ l.length := by
  induction l with
  | nil => simp [removeFirstResult]
  | cons r t ih =>
    simp only [removeFirstResult]
    by_cases h : r.filename == name <;> simp [h] <;> omega

theorem applyFileComplete_results (s : WaveformJobStatus) (rec : FileCompleteRecord) :
    (applyFileComplete s rec).results =
      removeFirstResult s.results (buildFileResult rec).filename ++ [buildFileResult rec] := rfl

theorem applyFileComplete_processedFiles (s : WaveformJobStatus) (rec : FileCompleteRecord) :
    (applyFileComplete s rec).processedFiles =
      (countTerminal (applyFileComplete s rec).results : Int) := rfl

theorem applyFileComplete_successfulFiles (s : WaveformJobStatus) (rec : FileCompleteRecord) :
    (applyFileComplete s rec).successfulFiles =
      (countSuccess (applyFileComplete s rec).results : Int) := rfl

theorem applyFileComplete_failedFiles (s : WaveformJobStatus) (rec : FileCompleteRecord) :
    (applyFileComplete s rec).failedFiles =
      (countError (applyFileComplete s rec).results : Int) := rfl

theorem applyFileComplete_totalFiles (s : WaveformJobStatus) (rec : FileCompleteRecord) :
    (applyFileComplete s rec).totalFiles = s.totalFiles := rfl

theorem applyFileComplete_status (s : WaveformJobStatus) (rec : FileCompleteRecord) :
    (applyFileComplete s rec).status = s.status := rfl

theorem applyFileComplete_counts (s : WaveformJobStatus) (rec : FileCompleteRecord) :
    (applyFileComplete s rec).processedFiles =
      (applyFileComplete s rec).successfulFiles + (applyFileComplete s rec).failedFiles := by
  rw [applyFileComplete_processedFiles, applyFileComplete_successfulFiles,
    applyFileComplete_failedFiles]
  exact_mod_cast countTerminal_eq_add _

theorem applyFileComplete_results_length (s : WaveformJobStatus) (rec : FileCompleteRecord) :
    (applyFileComplete s rec).results.length ≤ s.results.length + 1 := by
  rw [applyFileComplete_results]
  simp only [List.length_append, List.length_cons, List.length_nil]
  have := removeFirstResult_length_le s.results (buildFileResult rec).filename
  omega

theorem applyFileComplete_processed_le (s : WaveformJobStatus) (rec : FileCompleteRecord) :
    (applyFileComplete s rec).processedFiles ≤ ((applyFileComplete s rec).results.length : Int) := by
  rw [applyFileComplete_processedFiles]
  exact_mod_cast countTerminal_le_length _

theorem foldl_applyFileComplete_totalFiles (rs : List FileCompleteRecord)
    (s : WaveformJobStatus) :
    (rs.foldl applyFileComplete s).totalFiles = s.totalFiles := by
  induction rs generalizing s with
  | nil => rfl
  | cons r t ih => rw [List.foldl_cons, ih, applyFileComplete_totalFiles]

theorem foldl_applyFileComplete_length (rs : List FileCompleteRecord)
    (s : WaveformJobStatus) :
    (rs.foldl applyFileComplete s).results.length ≤ s.results.length + rs.length := by
  induction rs generalizing s with
  | nil => simp
  | cons r t ih =>
    rw [List.foldl_cons]
    have h1 := ih (applyFileComplete s r)
    have h2 := applyFileComplete_results_length s r
    simp only [List.length_cons]
    omega

theorem foldl_applyFileComplete_processed_le (rs : List FileCompleteRecord)
    (s : WaveformJobStatus) (hs : s.processedFiles ≤ (s.results.length : Int)) :
    (rs.foldl applyFileComplete s).processedFiles ≤
      ((rs.foldl applyFileComplete s).results.length : Int) := by
  induction rs generalizing s with
  | nil => exact hs
  | cons r t ih =>
    rw [List.foldl_cons]
    exact ih (applyFileComplete s r) (applyFileComplete_processed_le s r)

/-- C1 counterexample: after a `started` record fixes `totalFiles = 1`,
two `file_complete` records for distinct filenames drive
`processedFiles` to 2 > `totalFiles` — the bound claimed by the spec is
not enforced by the code. -/
theorem processedFiles_can_exceed_totalFiles :
    (List.foldl applyFileComplete
        (processProgressLine 0 (.record (.started (some 1))) (initialJobState "job" 0))
        [{ filename := some (some "a"), status := some (some "success") },
         { filename := some (some "b"), status := some (some "success") }]).totalFiles = 1 ∧
    (List.foldl applyFileComplete
        (processProgressLine 0 (.record (.started (some 1))) (initialJobState "job" 0))
        [{ filename := some (some "a"), status := some (some "success") },
         { filename := some (some "b"), status := some (some "success") }]).processedFiles = 2 := by
  decide

/-- C1 (amended): after any sequence of `file_complete` records,
`processedFiles = successfulFiles + failedFiles` holds after each
application unconditionally, and `processedFiles` stays bounded by
`totalFiles` (as set by the `started` record) provided the external
process emits at most `totalFiles` `file_complete` records. -/
theorem processedFiles_consistency (jid : String) (t0 now : ℚ) (T : Int)
    (rs : List FileCompleteRecord) (hT : (rs.length : Int) ≤ T) :
    (∀ (s : WaveformJobStatus) (r : FileCompleteRecord),
        (applyFileComplete s r).processedFiles =
          (applyFileComplete s r).successfulFiles + (applyFileComplete s r).failedFiles) ∧
    (rs.foldl applyFileComplete
        (processProgressLine now (.record (.started (some T))) (initialJobState jid t0))).totalFiles
      = T ∧
    (rs.foldl applyFileComplete
        (processProgressLine now (.record (.started (some T))) (initialJobState jid t0))).processedFiles
      ≤ T := by
  refine ⟨fun s r => applyFileComplete_counts s r, ?_, ?_⟩
  · rw [foldl_applyFileComplete_totalFiles]; rfl
  · set s0 := processProgressLine now (.record (.started (some T))) (initialJobState jid t0)
      with hs0
    have h1 := foldl_applyFileComplete_processed_le rs s0
      (by rw [hs0]; simp [processProgressLine, initialJobState])
    have h2 := foldl_applyFileComplete_length rs s0
    have h0 : s0.results.length = 0 := by rw [hs0]; rfl
    rw [h0, Nat.zero_add] at h2
    have h3 : ((rs.foldl applyFileComplete s0).results.length : Int) ≤ (rs.length : Int) := by
      exact_mod_cast h2
    omega

/-- C1 witness: the amended bound at a concrete instance. -/
theorem processedFiles_consistency_witness :
    ((2 : Int) ≤ 3) ∧
    (List.foldl applyFileComplete
        (processProgressLine 0 (.record (.started (some 3))) (initialJobState "job" 0))
        [{ filename := some (some "a"), status := some (some "success") },
         { filename := some (some "b"), status := some (some "error"),
           error := some (some "boom") }]).processedFiles ≤ 3 :=
  ⟨by decide,
   (processedFiles_consistency "job" 0 0 3
      [{ filename := some (some "a"), status := some (some "success") },
       { filename := some (some "b"), status := some (some "error"),
         error := some (some "boom") }] (by decide)).2.2⟩

/-- C2 counterexample: a reachable trace in which a job completed by a
`completed` record is afterwards moved to `failed` by a later `error`
record — the `error` case sets the status unconditionally. -/
theorem completed_job_failed_by_error_record :
    (processProgressLine 2 (.record .completed)
        (processProgressLine 1 (.record (.started (some 1))) (initialJobState "job" 0))).status
      = "completed" ∧
    (processProgressLine 3 (.record (.error (some (some "late"))))
        (processProgressLine 2 (.record .completed)
          (processProgressLine 1 (.record (.started (some 1))) (initialJobState "job" 0)))).status
      = "failed" := by
  decide

/-- C2 (amended): terminal-state stability holds only partially. The
exit-code-0 path is a no-op on any job not in `processing` (so it never
moves a terminal job); an `error` record or a nonzero exit applied to an
already-failed job leaves the status `failed` (though the error message
and end time are overwritten, so it is not a full no-op); and
`file_complete` records never change the status. A completed job can
however still be moved to `failed` by a later `error` record or nonzero
exit code. -/
theorem terminal_status_partial_stability (now : ℚ) (e : String) (msg : Option String)
    (rec : FileCompleteRecord) (s : WaveformJobStatus) :
    (s.status ≠ "processing" → applyExitCode now 0 e s = s) ∧
    (s.status = "failed" →
      (processProgressLine now (.record (.error (some msg))) s).status = "failed" ∧
      (applyExitCode now 1 e s).status = "failed") ∧
    (processProgressLine now (.record (.fileComplete rec)) s).status = s.status := by
  refine ⟨fun h => ?_, fun _ => ⟨rfl, rfl⟩, applyFileComplete_status s rec⟩
  have hb : (s.status == "processing") = false := by
    simp only [beq_eq_false_iff_ne, ne_eq]; exact h
  simp [applyExitCode, hb]

/-- C2 witness: the stability statements at a concrete failed job. -/
theorem terminal_status_partial_stability_witness :
    (applyExitCode 7 0 "stderr text"
        { initialJobState "job" 0 with status := "failed" } =
      { initialJobState "job" 0 with status := "failed" }) ∧
    (processProgressLine 7 (.record (.error (some (some "again"))))
        { initialJobState "job" 0 with status := "failed" }).status = "failed" ∧
    (applyExitCode 7 1 "stderr text"
        { initialJobState "job" 0 with status := "failed" }).status = "failed" :=
  let t := terminal_status_partial_stability 7 "stderr text" (some "again")
    {} { initialJobState "job" 0 with status := "failed" }
  ⟨t.1 (by decide), (t.2.1 rfl).1, (t.2.1 rfl).2⟩

/-- Helper: every ignored line leaves the job state untouched. -/
theorem processProgressLine_ignored (now : ℚ) (l : StdoutLine) (s : WaveformJobStatus)
    (h : isIgnoredLine l = true) : processProgressLine now l s = s := by
  cases l with
  | invalidJson => rfl
  | nonObjectRoot => simp [isIgnoredLine] at h
  | missingType => rfl
  | nonStringType => simp [isIgnoredLine] at h
  | illTypedField t => simp [isIgnoredLine] at h
  | record r =>
    cases r with
    | unknown t => rfl
    | started tf => simp [isIgnoredLine] at h
    | progress a b c => simp [isIgnoredLine] at h
    | fileComplete rec => simp [isIgnoredLine] at h
    | completed => simp [isIgnoredLine] at h
    | error m => simp [isIgnoredLine] at h

/-- C4 counterexample: a line that is valid JSON but not an object — a
malformed line with no discriminant field, e.g. a bare `42` printed to
stdout — makes `TryGetProperty` throw `InvalidOperationException`, which
the `JsonException`-only handler does not catch; the job-level
`catch (Exception)` then marks the processing job failed, refuting
"never transitions the job to failed". -/
theorem malformed_line_fails_job :
    (runReaderLoop "Operation is not valid due to the current state of the object."
        (processProgressLine 0 (.record (.started (some 1))) (initialJobState "job" 0))
        [(1, .nonObjectRoot)]).status = "failed" ∧
    (runReaderLoop "Operation is not valid due to the current state of the object."
        (processProgressLine 0 (.record (.started (some 1))) (initialJobState "job" 0))
        [(1, .nonObjectRoot)]).status ≠ "processing" := by
  decide

/-- C4 (amended): a line that fails JSON parsing, an object without the
`type` property, and an object with an unrecognized string discriminant
are skipped — the state, in particular the status, is unchanged, and
removing all such lines from a throw-free stream does not change the
resulting state, so they do not affect the counts derived from the valid
records. But a line that is valid JSON with a non-object root, an object
whose `type` value is not a string, or a recognized record with an
ill-typed required field throws past the `JsonException`-only handler,
and the job-level catch marks the job failed with the exception
message. -/
theorem protocol_line_skip_or_fail (now t : ℚ) (l lt : StdoutLine) (s : WaveformJobStatus)
    (lines : List (ℚ × StdoutLine)) (excMsg : String)
    (h : isIgnoredLine l = true) (ht : lineThrows lt = true)
    (hnothrow : ∀ p ∈ lines, lineThrows p.2 = false) :
    processProgressLine now l s = s ∧
    (processProgressLine now l s).status = s.status ∧
    runReaderLoop excMsg s lines = applyLines s lines ∧
    applyLines s lines = applyLines s (lines.filter (fun p => !(isIgnoredLine p.2))) ∧
    (runReaderLoop excMsg s ((t, lt) :: lines)).status = "failed" ∧
    (runReaderLoop excMsg s ((t, lt) :: lines)).error = some excMsg := by
  refine ⟨processProgressLine_ignored now l s h,
    by rw [processProgressLine_ignored now l s h], ?_, ?_, ?_, ?_⟩
  · induction lines generalizing s with
    | nil => rfl
    | cons p rest ih =>
      have hp := hnothrow p (List.mem_cons_self p rest)
      simp only [runReaderLoop, applyLines, List.foldl_cons, hp, Bool.false_eq_true, if_false]
      exact ih (processProgressLine p.1 p.2 s)
        (fun q hq => hnothrow q (List.mem_cons_of_mem p hq))
  · induction lines generalizing s with
    | nil => rfl
    | cons p rest ih =>
      have hrest : ∀ q ∈ rest, lineThrows q.2 = false :=
        fun q hq => hnothrow q (List.mem_cons_of_mem p hq)
      by_cases hp : isIgnoredLine p.2 = true
      · have hnoop := processProgressLine_ignored p.1 p.2 s hp
        simp only [applyLines, List.foldl_cons, List.filter_cons, hp, Bool.not_true,
          Bool.false_eq_true, if_false, hnoop]
        exact ih s hrest
      · have hp' : isIgnoredLine p.2 = false := by
          cases hq : isIgnoredLine p.2 with
          | true => exact absurd hq hp
          | false => rfl
        simp only [applyLines, List.foldl_cons, List.filter_cons, hp', Bool.not_false, if_true]
        exact ih (processProgressLine p.1 p.2 s) hrest
  · simp [runReaderLoop, ht]
  · simp [runReaderLoop, ht]

/-- C4 witness: an invalid-JSON line among two valid `file_complete`
lines is dropped without affecting the derived state, while a
non-object-root line fails the job. -/
theorem protocol_line_skip_or_fail_witness :
    processProgressLine 5 .invalidJson (initialJobState "job" 0) = initialJobState "job" 0 ∧
    (processProgressLine 5 .invalidJson (initialJobState "job" 0)).status =
      (initialJobState "job" 0).status ∧
    runReaderLoop "boom" (initialJobState "job" 0)
        [(1, .record (.fileComplete { filename := some (some "a"), status := some (some "success") })),
         (2, .invalidJson),
         (3, .record (.fileComplete { filename := some (some "b"), status := some (some "error") }))] =
      applyLines (initialJobState "job" 0)
        [(1, .record (.fileComplete { filename := some (some "a"), status := some (some "success") })),
         (2, .invalidJson),
         (3, .record (.fileComplete { filename := some (some "b"), status := some (some "error") }))] ∧
    applyLines (initialJobState "job" 0)
        [(1, .record (.fileComplete { filename := some (some "a"), status := some (some "success") })),
         (2, .invalidJson),
         (3, .record (.fileComplete { filename := some (some "b"), status := some (some "error") }))] =
      applyLines (initialJobState "job" 0)
        ([(1, .record (.fileComplete { filename := some (some "a"), status := some (some "success") })),
          (2, .invalidJson),
          (3, .record (.fileComplete { filename := some (some "b"), status := some (some "error") }))].filter
          (fun p => !(isIgnoredLine p.2))) ∧
    (runReaderLoop "boom" (initialJobState "job" 0)
        ((4, .nonObjectRoot) ::
          [(1, .record (.fileComplete { filename := some (some "a"), status := some (some "success") })),
           (2, .invalidJson),
           (3, .record (.fileComplete { filename := some (some "b"), status := some (some "error") }))])).status
      = "failed" ∧
    (runReaderLoop "boom" (initialJobState "job" 0)
        ((4, .nonObjectRoot) ::
          [(1, .record (.fileComplete { filename := some (some "a"), status := some (some "success") })),
           (2, .invalidJson),
           (3, .record (.fileComplete { filename := some (some "b"), status := some (some "error") }))])).error
      = some "boom" :=
  protocol_line_skip_or_fail 5 4 .invalidJson .nonObjectRoot (initialJobState "job" 0)
    [(1, .record (.fileComplete { filename := some (some "a"), status := some (some "success") })),
     (2, .invalidJson),
     (3, .record (.fileComplete { filename := some (some "b"), status := some (some "error") }))]
    "boom" (by decide) (by decide) (by decide)

/-- C9: a state update for a job id absent from the store (never created
or already evicted) is a silent no-op — the store is unchanged, so no
entry is created, no entry is modified, and every other job's entry is
unaffected. -/
theorem update_missing_job_noop (store : JobStore) (jobId : String)
    (f : WaveformJobStatus → WaveformJobStatus) (h : lookupJob store jobId = none) :
    updateJobState store jobId f = store ∧
    ∀ other, lookupJob (updateJobState store jobId f) other = lookupJob store other := by
  have h1 : updateJobState store jobId f = store := by
    unfold updateJobState
    rw [h]
  exact ⟨h1, fun other => by rw [h1]⟩

/-- C9 witness: updating an expired job id in a store holding another
job changes nothing. -/
theorem update_missing_job_noop_witness :
    updateJobState [("other", initialJobState "other" 0)] "gone"
        (fun st => { st with status := "failed" }) =
      [("other", initialJobState "other" 0)] ∧
    ∀ other, lookupJob (updateJobState [("other", initialJobState "other" 0)] "gone"
        (fun st => { st with status := "failed" })) other =
      lookupJob [("other", initialJobState "other" 0)] other :=
  update_missing_job_noop [("other", initialJobState "other" 0)] "gone"
    (fun st => { st with status := "failed" }) (by decide)

/-- Helper: under distinct filenames, removing the first match leaves no
element with that filename. -/
theorem removeFirstResult_not_mem (l : List WaveformFileResult) (name : String)
    (h : filenamesDistinct l = true) :
    ∀ x ∈ removeFirstResult l name, x.filename ≠ name := by
  induction l with
  | nil => intro x hx; simp [removeFirstResult] at hx
  | cons r rest ih =>
    rw [filenamesDistinct, Bool.and_eq_true] at h
    obtain ⟨hall, hrest⟩ := h
    rw [List.all_eq_true] at hall
    intro x hx
    simp only [removeFirstResult] at hx
    by_cases hr : r.filename == name
    · rw [if_pos hr] at hx
      have hx' := hall x hx
      simp only [Bool.not_eq_eq_eq_not, Bool.not_true, beq_eq_false_iff_ne, ne_eq] at hx'
      rw [← eq_of_beq hr]
      exact hx'
    · rw [if_neg hr] at hx
      cases hx with
      | head => simpa using hr
      | tail _ hx' => exact ih hrest x hx'

/-- Helper: removing `fr.filename` from `A ++ [fr]` gives back `A` when no
element of `A` carries that filename. -/
theorem removeFirstResult_append_no_match (A : List WaveformFileResult)
    (fr : WaveformFileResult) (hA : ∀ x ∈ A, x.filename ≠ fr.filename) :
    removeFirstResult (A ++ [fr]) fr.filename = A := by
  induction A with
  | nil => simp [removeFirstResult]
  | cons a A' ih =>
    have ha : (a.filename == fr.filename) = false := by
      rw [beq_eq_false_iff_ne]
      exact hA a (by simp)
    simp only [List.cons_append, removeFirstResult, ha, Bool.false_eq_true, if_false,
      List.cons.injEq, true_and]
    exact ih (fun x hx => hA x (by simp [hx]))

/-- Helper: finding `fr.filename` in `A ++ [fr]` yields `fr` when no
element of `A` carries that filename. -/
theorem find?_append_no_match (A : List WaveformFileResult)
    (fr : WaveformFileResult) (hA : ∀ x ∈ A, x.filename ≠ fr.filename) :
    (A ++ [fr]).find? (fun x => x.filename == fr.filename) = some fr := by
  induction A with
  | nil => simp [List.find?]
  | cons a A' ih =>
    have ha : (a.filename == fr.filename) = false := by
      rw [beq_eq_false_iff_ne]
      exact hA a (by simp)
    simp only [List.cons_append, List.find?, ha]
    exact ih (fun x hx => hA x (by simp [hx]))

/-- Helper: `applyFileComplete` is the identity on a state that already
holds the upserted result list and the counters recomputed from it. -/
theorem applyFileComplete_fix (s : WaveformJobStatus) (rec : FileCompleteRecord)
    (hres : removeFirstResult s.results (buildFileResult rec).filename ++ [buildFileResult rec]
      = s.results)
    (hp : s.processedFiles = (countTerminal s.results : Int))
    (hsf : s.successfulFiles = (countSuccess s.results : Int))
    (hff : s.failedFiles = (countError s.results : Int)) :
    applyFileComplete s rec = s := by
  unfold applyFileComplete
  dsimp only
  rw [hres, ← hp, ← hsf, ← hff]

/-- C3: applying the same `file_complete` record twice is idempotent on
any job state whose result filenames are distinct (the uniqueness
invariant of §3): the second application returns the state unchanged —
so the counters do not double-count — and the stored `FileResult` for
that filename is exactly the record applied last. -/
theorem fileComplete_idempotent (s : WaveformJobStatus) (rec : FileCompleteRecord)
    (h : filenamesDistinct s.results = true) :
    applyFileComplete (applyFileComplete s rec) rec = applyFileComplete s rec ∧
    (applyFileComplete s rec).results.find?
        (fun x => x.filename == (buildFileResult rec).filename) = some (buildFileResult rec) := by
  have hA := removeFirstResult_not_mem s.results (buildFileResult rec).filename h
  have hrem := removeFirstResult_append_no_match _ (buildFileResult rec) hA
  constructor
  · refine applyFileComplete_fix _ rec ?_ rfl rfl rfl
    rw [applyFileComplete_results, hrem]
  · rw [applyFileComplete_results]
    exact find?_append_no_match _ _ hA

/-- C3 witness: double application at a concrete reachable state. -/
theorem fileComplete_idempotent_witness :
    applyFileComplete
        (applyFileComplete
          (applyFileComplete (initialJobState "job" 0)
            { filename := some (some "a"), status := some (some "success") })
          { filename := some (some "a"), status := some (some "error"), error := some (some "x") })
        { filename := some (some "a"), status := some (some "error"), error := some (some "x") } =
      applyFileComplete
        (applyFileComplete (initialJobState "job" 0)
          { filename := some (some "a"), status := some (some "success") })
        { filename := some (some "a"), status := some (some "error"), error := some (some "x") } ∧
    (applyFileComplete
        (applyFileComplete (initialJobState "job" 0)
          { filename := some (some "a"), status := some (some "success") })
        { filename := some (some "a"), status := some (some "error"), error := some (some "x") }).results.find?
        (fun x => x.filename ==
          (buildFileResult { filename := some (some "a"), status := some (some "error"),
                             error := some (some "x") }).filename) =
      some (buildFileResult { filename := some (some "a"), status := some (some "error"),
                              error := some (some "x") }) :=
  fileComplete_idempotent
    (applyFileComplete (initialJobState "job" 0)
      { filename := some (some "a"), status := some (some "success") })
    { filename := some (some "a"), status := some (some "error"), error := some (some "x") }
    (by decide)

/-- C7 counterexample: a reachable trace in which a status read during
processing stores an estimate into the cached object; after the job
completes, a later read still returns that stale
`estimatedRemainingSeconds` (`some 10`) instead of it being absent as
claimed — the field is never cleared. -/
theorem stale_estimate_after_completion :
    (let store0 : JobStore := [("j",
        applyFileComplete
          (processProgressLine 1 (.record (.started (some 2))) (initialJobState "j" 0))
          { filename := some (some "a"), status := some (some "success") })]
     let store1 := (getJobStatus store0 "j" 10).2
     let store2 := processLineStore store1 "j" 12 (.record .completed)
     ((getJobStatus store2 "j" 20).1.map (fun js => (js.status, js.estimatedRemainingSeconds))) =
       some ("completed", some 10)) := by
  norm_num [getJobStatus, lookupJob, setJob, computeDerived, processLineStore, updateJobState,
    processProgressLine, applyFileComplete, initialJobState, countTerminal, countSuccess,
    countError, removeFirstResult, buildFileResult, List.find?]
  decide

/-- C7 (amended): for every stored job, the returned snapshot has
`elapsedSeconds = now − startTime`, and `estimatedRemainingSeconds`
equals `(elapsedSeconds / processedFiles) × (totalFiles − processedFiles)`
when `processedFiles > 0` and the status is `processing`; in every other
case the field is left at its previously stored value (it is never
cleared), so it is absent after a terminal state only if no read set it
while the job was processing. -/
theorem getJobStatus_derived_fields (store : JobStore) (jobId : String) (now : ℚ)
    (st : WaveformJobStatus) (h : lookupJob store jobId = some st) :
    (getJobStatus store jobId now).1 = some (computeDerived now st) ∧
    (computeDerived now st).elapsedSeconds = some (now - st.startTime) ∧
    (st.processedFiles > 0 ∧ st.status = "processing" →
      (computeDerived now st).estimatedRemainingSeconds =
        some ((now - st.startTime) / (st.processedFiles : ℚ) *
          ((st.totalFiles - st.processedFiles : Int) : ℚ))) ∧
    (¬(st.processedFiles > 0 ∧ st.status = "processing") →
      (computeDerived now st).estimatedRemainingSeconds = st.estimatedRemainingSeconds) := by
  refine ⟨by simp [getJobStatus, h], ?_, ?_, ?_⟩
  · unfold computeDerived
    dsimp only
    split <;> rfl
  · intro hc
    unfold computeDerived
    dsimp only
    split
    · rfl
    · rename_i hneg
      exact absurd hc hneg
  · intro hc
    unfold computeDerived
    dsimp only
    split
    · rename_i hpos
      exact absurd hpos hc
    · rfl

/-- C7 witness: the derived fields at a concrete processing job. -/
theorem getJobStatus_derived_fields_witness :
    (let stW : WaveformJobStatus := { jobId := "j", status := "processing", totalFiles := 2, processedFiles := 1, startTime := 0 }
     (getJobStatus [("j", stW)] "j" 10).1 = some (computeDerived 10 stW) ∧
     (computeDerived 10 stW).elapsedSeconds = some (10 - stW.startTime) ∧
     (stW.processedFiles > 0 ∧ stW.status = "processing" →
       (computeDerived 10 stW).estimatedRemainingSeconds =
         some ((10 - stW.startTime) / (stW.processedFiles : ℚ) *
           ((stW.totalFiles - stW.processedFiles : Int) : ℚ))) ∧
     (¬(stW.processedFiles > 0 ∧ stW.status = "processing") →
       (computeDerived 10 stW).estimatedRemainingSeconds = stW.estimatedRemainingSeconds)) :=
  getJobStatus_derived_fields
    [("j", { jobId := "j", status := "processing", totalFiles := 2, processedFiles := 1, startTime := 0 })]
    "j" 10
    { jobId := "j", status := "processing", totalFiles := 2, processedFiles := 1, startTime := 0 }
    (by decide)

/-! ## Export-shape helper lemmas -/

theorem csvHeader_length : csvHeader.length = 5 + 480 := by
  simp [csvHeader]

theorem padTruncate480_length (l : List String) : (padTruncate480 l).length = 480 := by
  simp only [padTruncate480, List.length_take, List.length_append, List.length_replicate]
  omega

theorem csvRow_error_shape (dir : JobDirectory) (r : WaveformFileResult)
    (h : r.status = "error") :
    (csvRow dir r).length = 5 + 480 ∧ (csvRow dir r).drop 5 = List.replicate 480 "" := by
  have hrow : csvRow dir r =
      ["\"" ++ r.filename ++ "\"", r.status,
        toString (r.sampleCount.getD 0), formatF2 (r.fileSizeMb.getD 0),
        "\"" ++ ((r.error.map (fun e => e.replace "\"" "\"\"")).getD "") ++ "\""] ++
        List.replicate 480 "" := by
    simp [csvRow, h]
  rw [hrow]
  constructor
  · simp
  · exact List.drop_left' (by simp)

theorem csvRow_success_shape (dir : JobDirectory) (r : WaveformFileResult)
    (vals : List ℚ) (h : r.status ≠ "error")
    (hw : ((lookupArtifact dir (fileNameWithoutExtension r.filename)).bind
      (fun a => a.waveformData)) = some vals) :
    (csvRow dir r).length = 5 + 480 ∧
    (csvRow dir r).drop 5 = padTruncate480 (vals.map (fun v => formatF3 (round3 v))) := by
  obtain ⟨art, hart, hwd⟩ : ∃ art,
      lookupArtifact dir (fileNameWithoutExtension r.filename) = some art ∧
        art.waveformData = some vals := by
    cases hl : lookupArtifact dir (fileNameWithoutExtension r.filename) with
    | none => rw [hl] at hw; simp at hw
    | some art => rw [hl] at hw; exact ⟨art, rfl, hw⟩
  have hb : (r.status == "error") = false := by rw [beq_eq_false_iff_ne]; exact h
  have hrow : csvRow dir r =
      ["\"" ++ r.filename ++ "\"", r.status,
        toString (r.sampleCount.getD 0), formatF2 (r.fileSizeMb.getD 0), ""] ++
        padTruncate480 (vals.map (fun v => formatF3 (round3 v))) := by
    simp [csvRow, hb, hart, hwd]
  rw [hrow]
  constructor
  · simp [padTruncate480_length]
  · exact List.drop_left' (by simp)

theorem csvRow_missing_shape (dir : JobDirectory) (r : WaveformFileResult)
    (h : r.status ≠ "error")
    (hw : ((lookupArtifact dir (fileNameWithoutExtension r.filename)).bind
      (fun a => a.waveformData)) = none) :
    (csvRow dir r).length = 5 := by
  have hb : (r.status == "error") = false := by rw [beq_eq_false_iff_ne]; exact h
  cases hl : lookupArtifact dir (fileNameWithoutExtension r.filename) with
  | none => simp [csvRow, hb, hl]
  | some art =>
    rw [hl] at hw
    cases hwd : art.waveformData with
    | none => simp [csvRow, hb, hl, hwd]
    | some vals => simp [hwd] at hw

/-- C6 counterexample: a data row for a success result whose artifact
file is missing carries only the 5 metadata columns, not the header's
485 — the column count is not invariant as claimed. -/
theorem csv_missing_artifact_row_short :
    (csvRow { dirExists := true, files := [] }
        { filename := "a.mp3", status := "success" }).length = 5 ∧
    csvHeader.length = 485 ∧
    (csvRow { dirExists := true, files := [] }
        { filename := "a.mp3", status := "success" }).length ≠ csvHeader.length := by
  refine ⟨by decide, csvHeader_length, ?_⟩
  rw [csvHeader_length]
  have h5 : (csvRow { dirExists := true, files := [] }
      { filename := "a.mp3", status := "success" }).length = 5 := by decide
  omega

/-- C6 (amended): every error row and every non-error row whose artifact
exists and has a `waveform_data` array has exactly the header's
5 + 480 columns — error rows carry 480 empty waveform fields, non-error
rows the samples padded with the `"0.000"` sentinel below 480 and
truncated above; but a non-error row whose artifact file is missing (or
lacks `waveform_data`) has only the 5 metadata columns. -/
theorem csv_row_column_counts (dir : JobDirectory) (r : WaveformFileResult) :
    csvHeader.length = 5 + 480 ∧
    (r.status = "error" →
      (csvRow dir r).length = 5 + 480 ∧
      (csvRow dir r).drop 5 = List.replicate 480 "") ∧
    (r.status ≠ "error" →
      ∀ vals, ((lookupArtifact dir (fileNameWithoutExtension r.filename)).bind
          (fun a => a.waveformData)) = some vals →
        (csvRow dir r).length = 5 + 480 ∧
        (csvRow dir r).drop 5 = padTruncate480 (vals.map (fun v => formatF3 (round3 v)))) ∧
    (r.status ≠ "error" →
      ((lookupArtifact dir (fileNameWithoutExtension r.filename)).bind
          (fun a => a.waveformData)) = none →
      (csvRow dir r).length = 5) :=
  ⟨csvHeader_length,
   fun h => csvRow_error_shape dir r h,
   fun h vals hw => csvRow_success_shape dir r vals h hw,
   fun h hw => csvRow_missing_shape dir r h hw⟩

/-- C6 witness: the amended column counts at concrete error and success
rows. -/
theorem csv_row_column_counts_witness :
    (csvRow { dirExists := true, files := [("a", { waveformData := some [(1 : ℚ)] })] }
        { filename := "a.mp3", status := "error", error := some "bad" }).length = 5 + 480 ∧
    (csvRow { dirExists := true, files := [("a", { waveformData := some [(1 : ℚ)] })] }
        { filename := "a.mp3", status := "success" }).length = 5 + 480 :=
  ⟨((csv_row_column_counts
      { dirExists := true, files := [("a", { waveformData := some [(1 : ℚ)] })] }
      { filename := "a.mp3", status := "error", error := some "bad" }).2.1 rfl).1,
   ((csv_row_column_counts
      { dirExists := true, files := [("a", { waveformData := some [(1 : ℚ)] })] }
      { filename := "a.mp3", status := "success" }).2.2.1 (by decide) [(1 : ℚ)] (by decide)).1⟩

theorem filterMap_length_of_all_some {α β : Type} (f : α → Option β) (l : List α)
    (h : ∀ a ∈ l, (f a).isSome) : (l.filterMap f).length = l.length := by
  induction l with
  | nil => rfl
  | cons a t ih =>
    cases hfa : f a with
    | none =>
      have ha := h a (List.mem_cons_self a t)
      rw [hfa] at ha
      simp at ha
    | some b =>
      rw [List.filterMap_cons_some hfa]
      simp only [List.length_cons]
      rw [ih (fun x hx => h x (List.mem_cons_of_mem a hx))]

theorem sampleCountOnDisk_spec (dir : JobDirectory) (name : String)
    (h : sampleCountOnDisk dir name = some 480) :
    ∃ art vals, lookupArtifact dir name = some art ∧ art.waveformData = some vals ∧
      vals.length = 480 := by
  unfold sampleCountOnDisk at h
  cases hl : lookupArtifact dir name with
  | none => rw [hl] at h; simp at h
  | some art =>
    rw [hl] at h
    cases hw : art.waveformData with
    | none => simp [hw] at h
    | some vals =>
      refine ⟨art, vals, rfl, hw, ?_⟩
      simp [hw] at h
      exact h

theorem jsonEntryFor_of_success (dir : JobDirectory) (r : WaveformFileResult)
    (art : Artifact) (vals : List ℚ) (hs : r.status = "success")
    (hl : lookupArtifact dir (fileNameWithoutExtension r.filename) = some art)
    (hw : art.waveformData = some vals) :
    jsonEntryFor dir r =
      some (.success r.filename r.sampleCount r.fileSizeMb r.status (vals.map round3)) := by
  simp [jsonEntryFor, hs, hl, hw]

/-- C5: for a completed job whose results are all successful files with
an existing 480-sample artifact, the JSON export has exactly one
waveform entry per file, each with 480 values; the CSV export has one
header row plus one row per file, each row with the 5 metadata columns
plus 480 waveform columns; and the ZIP export has one artifact entry per
file plus exactly one manifest, whose per-file index has one non-null
artifact-name entry per file. -/
theorem export_counts_complete_job (jobId : String) (js : WaveformJobStatus)
    (dir : JobDirectory) (now : ℚ)
    (_hc : js.status = "completed")
    (hall : ∀ r ∈ js.results, r.status = "success" ∧
      sampleCountOnDisk dir (fileNameWithoutExtension r.filename) = some 480) :
    (exportAsJson jobId js dir now).waveforms.length = js.results.length ∧
    (∀ e ∈ (exportAsJson jobId js dir now).waveforms, jsonEntryHas480 e = true) ∧
    (exportAsCsvRows dir js).length = js.results.length + 1 ∧
    (∀ row ∈ exportAsCsvRows dir js, row.length = 5 + 480) ∧
    (exportAsZip jobId js dir now).length = js.results.length + 1 ∧
    ((exportAsZip jobId js dir now).countP ZipEntry.isArtifactEntry) = js.results.length ∧
    (zipManifestFor jobId js now).files.length = js.results.length ∧
    ((zipManifestFor jobId js now).files.countP (fun f => f.jsonFile.isSome)) =
      js.results.length := by
  have hsome : ∀ r ∈ js.results, (jsonEntryFor dir r).isSome := by
    intro r hr
    obtain ⟨hs, h480⟩ := hall r hr
    obtain ⟨art, vals, hl, hw, _⟩ := sampleCountOnDisk_spec dir _ h480
    rw [jsonEntryFor_of_success dir r art vals hs hl hw]
    rfl
  refine ⟨?_, ?_, ?_, ?_, ?_, ?_, ?_, ?_⟩
  · exact filterMap_length_of_all_some _ _ hsome
  · intro e he
    simp only [exportAsJson] at he
    obtain ⟨r, hr, hre⟩ := (List.mem_filterMap).mp he
    obtain ⟨hs, h480⟩ := hall r hr
    obtain ⟨art, vals, hl, hw, hlen⟩ := sampleCountOnDisk_spec dir _ h480
    rw [jsonEntryFor_of_success dir r art vals hs hl hw] at hre
    have he' : e = JsonExportEntry.success r.filename r.sampleCount r.fileSizeMb r.status
        (vals.map round3) := by
      injection hre with h
      exact h.symm
    rw [he']
    simp [jsonEntryHas480, hlen]
  · simp [exportAsCsvRows]
  · intro row hrow
    simp only [exportAsCsvRows, List.mem_cons] at hrow
    cases hrow with
    | inl hh => rw [hh]; exact csvHeader_length
    | inr hh =>
      obtain ⟨r, hr, hre⟩ := List.mem_map.mp hh
      obtain ⟨hs, h480⟩ := hall r hr
      have hne : r.status ≠ "error" := by rw [hs]; decide
      obtain ⟨art, vals, hl, hw, _⟩ := sampleCountOnDisk_spec dir _ h480
      have hb : ((lookupArtifact dir (fileNameWithoutExtension r.filename)).bind
          (fun a => a.waveformData)) = some vals := by rw [hl]; simpa using hw
      rw [← hre]
      exact (csvRow_success_shape dir r vals hne hb).1
  · -- ZIP entry count
    have hfilter : js.results.filter (fun r => r.status == "success") = js.results := by
      rw [List.filter_eq_self]
      intro r hr
      rw [(hall r hr).1]
      rfl
    have hlen : ((js.results.filter (fun r => r.status == "success")).filterMap
        (fun r =>
          (lookupArtifact dir (fileNameWithoutExtension r.filename)).map
            (fun art => ZipEntry.artifact (fileNameWithoutExtension r.filename ++ ".json") art))).length
        = js.results.length := by
      rw [hfilter]
      refine filterMap_length_of_all_some _ _ ?_
      intro r hr
      obtain ⟨_, h480⟩ := hall r hr
      obtain ⟨art, vals, hl, hw, _⟩ := sampleCountOnDisk_spec dir _ h480
      rw [hl]
      rfl
    simp only [exportAsZip, List.length_append, List.length_cons, List.length_nil]
    rw [hlen]
  · -- ZIP artifact entry count
    have hfilter : js.results.filter (fun r => r.status == "success") = js.results := by
      rw [List.filter_eq_self]
      intro r hr
      rw [(hall r hr).1]
      rfl
    simp only [exportAsZip, List.countP_append]
    have hall' : ∀ z ∈ ((js.results.filter (fun r => r.status == "success")).filterMap
        (fun r =>
          (lookupArtifact dir (fileNameWithoutExtension r.filename)).map
            (fun art => ZipEntry.artifact (fileNameWithoutExtension r.filename ++ ".json") art))),
        ZipEntry.isArtifactEntry z = true := by
      intro z hz
      obtain ⟨r, _, hre⟩ := List.mem_filterMap.mp hz
      cases hl : lookupArtifact dir (fileNameWithoutExtension r.filename) with
      | none => rw [hl] at hre; simp at hre
      | some art =>
        rw [hl] at hre
        simp only [Option.map_some'] at hre
        injection hre with h
        rw [← h]
        rfl
    rw [List.countP_eq_length.mpr hall']
    have hlen : ((js.results.filter (fun r => r.status == "success")).filterMap
        (fun r =>
          (lookupArtifact dir (fileNameWithoutExtension r.filename)).map
            (fun art => ZipEntry.artifact (fileNameWithoutExtension r.filename ++ ".json") art))).length
        = js.results.length := by
      rw [hfilter]
      refine filterMap_length_of_all_some _ _ ?_
      intro r hr
      obtain ⟨_, h480⟩ := hall r hr
      obtain ⟨art, vals, hl, hw, _⟩ := sampleCountOnDisk_spec dir _ h480
      rw [hl]
      rfl
    rw [hlen]
    simp [ZipEntry.isArtifactEntry]
  · simp [zipManifestFor]
  · simp only [zipManifestFor]
    rw [List.countP_eq_length.mpr]
    · simp
    · intro f hf
      obtain ⟨r, hr, hrf⟩ := List.mem_map.mp hf
      have hs := (hall r hr).1
      rw [← hrf]
      simp [hs]

/-- C5 witness: the export counts at a concrete one-file completed job
with a 480-sample artifact. -/
theorem export_counts_complete_job_witness :
    (let art : Artifact := { filename := some (some "a.mp3"), sampleCount := some 480, waveformData := some (List.replicate 480 (0 : ℚ)) }
     let dir : JobDirectory := { dirExists := true, files := [("a", art)] }
     let js : WaveformJobStatus := { status := "completed", totalFiles := 1, processedFiles := 1, successfulFiles := 1, results := [{ filename := "a.mp3", status := "success", sampleCount := some 480 }] }
     (exportAsJson "j" js dir 0).waveforms.length = js.results.length ∧
     (∀ e ∈ (exportAsJson "j" js dir 0).waveforms, jsonEntryHas480 e = true) ∧
     (exportAsCsvRows dir js).length = js.results.length + 1 ∧
     (∀ row ∈ exportAsCsvRows dir js, row.length = 5 + 480) ∧
     (exportAsZip "j" js dir 0).length = js.results.length + 1 ∧
     ((exportAsZip "j" js dir 0).countP ZipEntry.isArtifactEntry) = js.results.length ∧
     (zipManifestFor "j" js 0).files.length = js.results.length ∧
     ((zipManifestFor "j" js 0).files.countP (fun f => f.jsonFile.isSome)) =
       js.results.length) :=
  export_counts_complete_job "j"
    { status := "completed", totalFiles := 1, processedFiles := 1, successfulFiles := 1, results := [{ filename := "a.mp3", status := "success", sampleCount := some 480 }] }
    { dirExists := true, files := [("a", { filename := some (some "a.mp3"), sampleCount := some 480, waveformData := some (List.replicate 480 (0 : ℚ)) })] }
    0 rfl (by decide)

theorem computeDerived_status (now : ℚ) (st : WaveformJobStatus) :
    (computeDerived now st).status = st.status := by
  unfold computeDerived
  dsimp only
  split <;> rfl

theorem lookupJob_setJob (store : JobStore) (jobId : String) (st : WaveformJobStatus) :
    lookupJob (setJob store jobId st) jobId = some st := by
  induction store with
  | nil =>
    unfold setJob lookupJob
    rw [show List.find? (fun p => p.1 == jobId) [(jobId, st)] = some (jobId, st) from
      List.find?_cons_of_pos _ (by simp)]
    rfl
  | cons p rest ih =>
    unfold setJob
    by_cases h : (p.1 == jobId) = true
    · rw [if_pos h]
      unfold lookupJob
      rw [show List.find? (fun q => q.1 == jobId) ((jobId, st) :: rest) = some (jobId, st) from
        List.find?_cons_of_pos _ (by simp)]
      rfl
    · rw [if_neg h]
      unfold lookupJob at ih ⊢
      rw [show List.find? (fun q => q.1 == jobId) (p :: setJob rest jobId st) =
          List.find? (fun q => q.1 == jobId) (setJob rest jobId st) from
        List.find?_cons_of_neg _ h]
      exact ih

/-- C8: the export endpoint's outcomes are decided in order — an invalid
format (not json/csv/zip after lower-casing) is a bad request regardless
of the job; with a valid format, an unknown or expired job id is
not-found; a known job not yet completed is a conflict, never a payload;
and any returned byte payload implies the job was completed and carries
the filename `waveforms-{jobId}.{format}`. -/
theorem export_endpoint_outcomes (store : JobStore) (dir : JobDirectory)
    (jobId format : String) (now : ℚ) :
    ((["json", "csv", "zip"].contains (toLowerAscii format)) = false →
      exportWaveformDataEndpoint store dir jobId format now = .badRequest) ∧
    ((["json", "csv", "zip"].contains (toLowerAscii format)) = true →
      lookupJob store jobId = none →
      exportWaveformDataEndpoint store dir jobId format now = .notFound) ∧
    (∀ st, (["json", "csv", "zip"].contains (toLowerAscii format)) = true →
      lookupJob store jobId = some st → st.status ≠ "completed" →
      exportWaveformDataEndpoint store dir jobId format now = .conflict) ∧
    (∀ payload contentType filename,
      exportWaveformDataEndpoint store dir jobId format now =
        .file payload contentType filename →
      filename = "waveforms-" ++ jobId ++ "." ++ toLowerAscii format ∧
      ∃ st, lookupJob store jobId = some st ∧ st.status = "completed") := by
  refine ⟨fun hv => ?_, fun hv hn => ?_, fun st hv hl hs => ?_, fun payload ct fn hfile => ?_⟩
  · unfold exportWaveformDataEndpoint
    rw [hv]
    rfl
  · unfold exportWaveformDataEndpoint
    rw [hv]
    simp [getJobStatus, hn]
  · unfold exportWaveformDataEndpoint
    rw [hv]
    simp [getJobStatus, hl, computeDerived_status, hs]
  · by_cases hv : (["json", "csv", "zip"].contains (toLowerAscii format)) = true
    · cases hl : lookupJob store jobId with
      | none =>
        have hnf : exportWaveformDataEndpoint store dir jobId format now = .notFound := by
          unfold exportWaveformDataEndpoint
          rw [hv]
          simp [getJobStatus, hl]
        rw [hnf] at hfile
        exact absurd hfile (by simp)
      | some st =>
        by_cases hs : st.status = "completed"
        · have hred : exportWaveformDataEndpoint store dir jobId format now =
              match exportWaveformData (setJob store jobId (computeDerived now st)) dir jobId
                  (toLowerAscii format) now with
              | none => ExportOutcome.notFound
              | some (p, c, f) => ExportOutcome.file p c f := by
            unfold exportWaveformDataEndpoint
            rw [hv]
            simp [getJobStatus, hl, computeDerived_status, hs]
          have hget : (getJobStatus (setJob store jobId (computeDerived now st)) jobId now).1 =
              some (computeDerived now (computeDerived now st)) := by
            simp [getJobStatus, lookupJob_setJob]
          have hst2 : (computeDerived now (computeDerived now st)).status = "completed" := by
            rw [computeDerived_status, computeDerived_status, hs]
          by_cases hd : dir.dirExists = true
          · have hdisj : toLowerAscii format = "json" ∨ toLowerAscii format = "csv" ∨
                toLowerAscii format = "zip" := by
              simpa using hv
            refine ⟨?_, st, rfl, hs⟩
            rcases hdisj with h | h | h
            · rw [hred, h] at hfile
              unfold exportWaveformData at hfile
              rw [hget] at hfile
              simp only [hst2, hd, (by decide : toLowerAscii "json" = "json"), ne_eq,
                not_true_eq_false, if_false, Bool.not_true, Bool.false_eq_true,
                ExportOutcome.file.injEq] at hfile
              rw [h]
              calc fn = ("waveforms-" ++ jobId) ++ ".json" := hfile.2.2.symm
                _ = ("waveforms-" ++ jobId) ++ ("." ++ "json") := rfl
                _ = "waveforms-" ++ jobId ++ "." ++ "json" := (String.append_assoc _ _ _).symm
            · rw [hred, h] at hfile
              unfold exportWaveformData at hfile
              rw [hget] at hfile
              simp only [hst2, hd, (by decide : toLowerAscii "csv" = "csv"), ne_eq,
                not_true_eq_false, if_false, Bool.not_true, Bool.false_eq_true,
                ExportOutcome.file.injEq] at hfile
              rw [h]
              calc fn = ("waveforms-" ++ jobId) ++ ".csv" := hfile.2.2.symm
                _ = ("waveforms-" ++ jobId) ++ ("." ++ "csv") := rfl
                _ = "waveforms-" ++ jobId ++ "." ++ "csv" := (String.append_assoc _ _ _).symm
            · rw [hred, h] at hfile
              unfold exportWaveformData at hfile
              rw [hget] at hfile
              simp only [hst2, hd, (by decide : toLowerAscii "zip" = "zip"), ne_eq,
                not_true_eq_false, if_false, Bool.not_true, Bool.false_eq_true,
                ExportOutcome.file.injEq] at hfile
              rw [h]
              calc fn = ("waveforms-" ++ jobId) ++ ".zip" := hfile.2.2.symm
                _ = ("waveforms-" ++ jobId) ++ ("." ++ "zip") := rfl
                _ = "waveforms-" ++ jobId ++ "." ++ "zip" := (String.append_assoc _ _ _).symm
          · rw [hred] at hfile
            unfold exportWaveformData at hfile
            rw [hget] at hfile
            have hdf : dir.dirExists = false := by
              cases hq : dir.dirExists with
              | true => exact absurd hq hd
              | false => rfl
            simp [hst2, hdf] at hfile
        · have hc : exportWaveformDataEndpoint store dir jobId format now = .conflict := by
            unfold exportWaveformDataEndpoint
            rw [hv]
            simp [getJobStatus, hl, computeDerived_status, hs]
          rw [hc] at hfile
          exact absurd hfile (by simp)
    · have hvf : (["json", "csv", "zip"].contains (toLowerAscii format)) = false := by
        cases hq : (["json", "csv", "zip"].contains (toLowerAscii format)) with
        | true => exact absurd hq hv
        | false => rfl
      have hbad : exportWaveformDataEndpoint store dir jobId format now = .badRequest := by
        unfold exportWaveformDataEndpoint
        rw [hvf]
        rfl
      rw [hbad] at hfile
      exact absurd hfile (by simp)

/-- C8 witness: each outcome at a concrete request. -/
theorem export_endpoint_outcomes_witness :
    exportWaveformDataEndpoint [] { dirExists := true, files := [] } "j" "xml" 0 = .badRequest ∧
    exportWaveformDataEndpoint [] { dirExists := true, files := [] } "j" "JSON" 0 = .notFound ∧
    exportWaveformDataEndpoint [("j", { initialJobState "j" 0 with status := "processing" })]
        { dirExists := true, files := [] } "j" "csv" 0 = .conflict ∧
    ("waveforms-j.zip" = "waveforms-" ++ "j" ++ "." ++ toLowerAscii "zip" ∧
      ∃ st, lookupJob [("j", { initialJobState "j" 0 with status := "completed" })] "j" =
        some st ∧ st.status = "completed") :=
  ⟨(export_endpoint_outcomes [] { dirExists := true, files := [] } "j" "xml" 0).1 (by decide),
   (export_endpoint_outcomes [] { dirExists := true, files := [] } "j" "JSON" 0).2.1
     (by decide) (by decide),
   (export_endpoint_outcomes [("j", { initialJobState "j" 0 with status := "processing" })]
       { dirExists := true, files := [] } "j" "csv" 0).2.2.1
     { initialJobState "j" 0 with status := "processing" } (by decide) (by decide) (by decide),
   (export_endpoint_outcomes [("j", { initialJobState "j" 0 with status := "completed" })]
       { dirExists := true, files := [] } "j" "zip" 0).2.2.2
     (.zip (exportAsZip "j"
       (computeDerived 0 (computeDerived 0 { initialJobState "j" 0 with status := "completed" }))
       { dirExists := true, files := [] } 0))
     "application/zip" "waveforms-j.zip"
     (by norm_num [exportWaveformDataEndpoint, exportWaveformData, getJobStatus, lookupJob,
          setJob, computeDerived, initialJobState, toLowerAscii, charToLower, List.find?]
         <;> decide)⟩

/-- C10: the single-file waveform fetch is independent of the job state
store — any two stores (and job-status entries) give the same response —
and, for a directory whose artifact files carry the fields the reader
requires, it returns data exactly when the artifact file for the
requested filename exists on disk; in particular it succeeds for an
expired or never-created job id and returns not-found when the artifact
is absent. -/
theorem single_file_fetch_ignores_store (store1 store2 : JobStore) (dir : JobDirectory)
    (jobId1 jobId2 filename : String) (hwf : dirWellFormed dir = true) :
    getWaveformDataEndpoint store1 dir jobId1 filename =
      getWaveformDataEndpoint store2 dir jobId2 filename ∧
    ((getWaveformData dir filename).isSome ↔
      (lookupArtifact dir (fileNameWithoutExtension filename)).isSome) := by
  refine ⟨rfl, ?_⟩
  cases hl : lookupArtifact dir (fileNameWithoutExtension filename) with
  | none => simp [getWaveformData, hl]
  | some art =>
    have hart : artifactWellFormed art = true := by
      unfold lookupArtifact at hl
      cases hf : dir.files.find? (fun p => p.1 == fileNameWithoutExtension filename) with
      | none => rw [hf] at hl; simp at hl
      | some p =>
        rw [hf] at hl
        simp only [Option.map_some', Option.some.injEq] at hl
        have hp := List.mem_of_find?_eq_some hf
        unfold dirWellFormed at hwf
        have hx := List.all_eq_true.mp hwf p hp
        rwa [hl] at hx
    rw [artifactWellFormed, Bool.and_eq_true] at hart
    obtain ⟨h1, h2⟩ := hart
    obtain ⟨fn, hfn⟩ := Option.isSome_iff_exists.mp h1
    obtain ⟨sc, hsc⟩ := Option.isSome_iff_exists.mp h2
    simp [getWaveformData, hl, hfn, hsc]

/-- C10 witness: a well-formed one-artifact directory — the fetch
succeeds with an empty store and fails for a missing artifact. -/
theorem single_file_fetch_ignores_store_witness :
    (getWaveformDataEndpoint [] { dirExists := true, files := [("a", { filename := some (some "a.mp3"), sampleCount := some 480, waveformData := some [] })] } "expired-job" "a.mp3" =
      getWaveformDataEndpoint [("other", initialJobState "other" 0)] { dirExists := true, files := [("a", { filename := some (some "a.mp3"), sampleCount := some 480, waveformData := some [] })] } "never-created" "a.mp3") ∧
    ((getWaveformData { dirExists := true, files := [("a", { filename := some (some "a.mp3"), sampleCount := some 480, waveformData := some [] })] } "a.mp3").isSome ↔
      (lookupArtifact { dirExists := true, files := [("a", { filename := some (some "a.mp3"), sampleCount := some 480, waveformData := some [] })] } (fileNameWithoutExtension "a.mp3")).isSome) :=
  single_file_fetch_ignores_store [] [("other", initialJobState "other" 0)]
    { dirExists := true, files := [("a", { filename := some (some "a.mp3"), sampleCount := some 480, waveformData := some [] })] }
    "expired-job" "never-created" "a.mp3" (by decide)

end SermonWaveform
